import Mathlib

/-!
Shallow embedding of the persistence-and-session layer of
`src/backend/user_database.py` (class `UserDatabase`), together with proofs
of the specification's claims about it.

Modelling conventions:
- Python `str` values that only flow through equality tests (usernames,
  emails, ids, tokens, messages) are Lean `String`s; password/credential
  strings, which are split and concatenated character-wise, are `List Char`.
- `hashlib.sha256(...).hexdigest()` is an external library function; the
  embedding is parameterised over it as `H : List Char → List Char`.
- Randomness (`secrets.token_hex`, `secrets.token_urlsafe`) is modelled by
  passing the generated value (salt, token, user id) as an explicit argument.
- `datetime.now()` is an explicit `now : Nat` argument (seconds); isoformat
  timestamp strings are modelled as the `Nat` they encode, and
  `datetime.fromisoformat` on a stored expiry always succeeds when the field
  is present, raises (caught by the bare `except`) when it is absent.
- The Python `dict` `self.users` is an association list `List (String × UserRecord)`
  with first-match lookup; in-place mutation of a looked-up record is
  `mapVal`, and `dict` insertion of a fresh key is append.
- The persisted JSON file is the `file` field of `DB`; `_save_users` sets it
  to the current in-memory mapping.
-/

namespace UserDb

/-- Password-like strings, split and concatenated character-wise. -/
abbrev Str := List Char

/-- Python `s.split(c)` for a single-character separator: the list of
chunks of `s` between occurrences of `c` (always non-empty). -/
def splitOn (c : Char) : Str → List Str
  | [] => [[]]
  | x :: xs =>
    if x = c then [] :: splitOn c xs
    else
      match splitOn c xs with
      | [] => [[x]]
      | y :: ys => (x :: y) :: ys

/-- `UserDatabase._hash_password`: `f"{salt}:{sha256((password+salt)).hexdigest()}"`.
The fresh random salt is passed explicitly. -/
def hash_password (H : Str → Str) (salt password : Str) : Str :=
  salt ++ ':' :: H (password ++ salt)

/-- `UserDatabase._verify_password`: split the stored credential on `':'`
(the Python tuple unpacking raises unless there are exactly two parts, and
the `except` returns `False`), recompute and compare the digest. -/
def verify_password (H : Str → Str) (password stored_hash : Str) : Bool :=
  match splitOn ':' stored_hash with
  | [salt, digest] => decide (H (password ++ salt) = digest)
  | _ => false

/-- A chat record as created by `create_user_chat` and mutated by
`update_chat_thread` / `update_chat_last_message` / `update_chat_title`. -/
structure ChatRecord where
  chat_id : String
  title : String
  thread_id : Option String
  created_at : Nat
  last_message_at : Option Nat
  message_count : Nat
  deriving DecidableEq

/-- A user record as created by `register_user`.  `session_token`,
`session_expires` and `thread_id` are absent keys until first set
(`none` models absence). -/
structure UserRecord where
  user_id : String
  username : String
  email : String
  password_hash : Str
  created_at : Nat
  last_login : Option Nat
  chats : List (String × ChatRecord)
  is_active : Bool
  session_token : Option String
  session_expires : Option Nat
  thread_id : Option String
  deriving DecidableEq

/-- The `self.users` mapping: username → user record. -/
abbrev Users := List (String × UserRecord)

/-- First-match association-list lookup (Python `dict.get` / `dict[k]`). -/
def lookup {α : Type} (k : String) : List (String × α) → Option α
  | [] => none
  | (k', v) :: rest => if k' = k then some v else lookup k rest

/-- In-place update of the value stored at key `k` (Python mutation of a
looked-up `dict` value). -/
def mapVal {α : Type} (k : String) (f : α → α) (l : List (String × α)) :
    List (String × α) :=
  l.map (fun p => if p.1 = k then (p.1, f p.2) else p)

/-- The in-memory store together with the persisted file contents.
`_save_users` overwrites `file` with the full current mapping. -/
structure DB where
  users : Users
  file : Users
  deriving DecidableEq

/-- The state of the persisted JSON file seen by `_load_users` at
construction time. -/
inductive FileState where
  | missing
  | corrupt
  | valid (users : Users)
  deriving DecidableEq

/-- `UserDatabase._load_users`: a missing file yields `{}`; a present file
that fails to parse is caught by the `except` branch, which logs the error
and returns `{}`; a parseable file yields its contents. -/
def load_users : FileState → Users
  | .missing => []
  | .corrupt => []
  | .valid u => u

/-- The spec's persistence-error taxonomy (§7). -/
inductive PersistenceError where
  | corruptDocument
  deriving DecidableEq

/-- The load contract as the spec states it (§4.4, §7): a missing file is an
empty store, and a corrupt file is a `PersistenceError` propagated to the
caller.  Written from the spec's words, for comparison with `load_users`. -/
def load_users_specContract : FileState → Except PersistenceError Users
  | .missing => .ok []
  | .corrupt => .error .corruptDocument
  | .valid u => .ok u

/-- Result dict of `register_user`. -/
structure RegResult where
  success : Bool
  message : String
  user_id : Option String
  deriving DecidableEq

/-- The public-user snapshot returned by a successful `authenticate_user`. -/
structure PublicUser where
  user_id : String
  username : String
  email : String
  chats : List (String × ChatRecord)
  deriving DecidableEq

/-- Result dict of `authenticate_user`. -/
structure AuthResult where
  success : Bool
  message : String
  user_data : Option PublicUser
  deriving DecidableEq

/-- The dict returned by a successful `validate_session`. -/
structure SessionInfo where
  username : String
  user_id : String
  thread_id : Option String
  deriving DecidableEq

/-- `UserDatabase.register_user`.  The fresh `user_id` and salt are passed
explicitly.  Returns the new state (unchanged on failure) and the result. -/
def register_user (H : Str → Str) (uid : String) (salt : Str) (now : Nat)
    (username email : String) (password : Str) (db : DB) : DB × RegResult :=
  if (lookup username db.users).isSome then
    (db, ⟨false, "Username already exists", none⟩)
  else if db.users.any (fun p => p.2.email = email) then
    (db, ⟨false, "Email already exists", none⟩)
  else
    let user_data : UserRecord :=
      { user_id := uid
        username := username
        email := email
        password_hash := hash_password H salt password
        created_at := now
        last_login := none
        chats := []
        is_active := true
        session_token := none
        session_expires := none
        thread_id := none }
    let users' := db.users ++ [(username, user_data)]
    ({ users := users', file := users' },
     ⟨true, "User registered successfully", some uid⟩)

/-- `UserDatabase.authenticate_user`. -/
def authenticate_user (H : Str → Str) (now : Nat) (username : String)
    (password : Str) (db : DB) : DB × AuthResult :=
  match lookup username db.users with
  | none => (db, ⟨false, "Invalid username or password", none⟩)
  | some user_data =>
    if !user_data.is_active then
      (db, ⟨false, "Account is deactivated", none⟩)
    else if !verify_password H password user_data.password_hash then
      (db, ⟨false, "Invalid username or password", none⟩)
    else
      let users' := mapVal username (fun r => { r with last_login := some now }) db.users
      ({ users := users', file := users' },
       ⟨true, "Login successful",
        some ⟨user_data.user_id, user_data.username, user_data.email, user_data.chats⟩⟩)

/-- `timedelta(hours=24)` in seconds. -/
def sessionSeconds : Nat := 24 * 60 * 60

/-- The two field assignments of `create_user_session`. -/
def setSession (token : String) (now : Nat) (r : UserRecord) : UserRecord :=
  { r with session_token := some token
           session_expires := some (now + sessionSeconds) }

/-- `UserDatabase.create_user_session`.  The fresh token is passed
explicitly; it is returned even when the username is unknown, in which case
nothing is stored or persisted. -/
def create_user_session (token : String) (now : Nat) (username : String)
    (db : DB) : DB × String :=
  if (lookup username db.users).isSome then
    let users' := mapVal username (setSession token now) db.users
    ({ users := users', file := users' }, token)
  else
    (db, token)

/-- The two `pop` calls of the expired-session branch of `validate_session`. -/
def clearSession (r : UserRecord) : UserRecord :=
  { r with session_token := none, session_expires := none }

/-- The `for username, user_data in self.users.items()` loop of
`validate_session`: returns the mapping after in-loop mutations, whether
`_save_users` was called, and the returned value.  A record whose token
matches but whose `session_expires` key is absent makes
`datetime.fromisoformat("")` raise, which the bare `except` swallows,
continuing the loop without clearing. -/
def validateLoop (now : Nat) (token : String) :
    Users → Users × Bool × Option SessionInfo
  | [] => ([], false, none)
  | (u, r) :: rest =>
    if r.session_token = some token then
      match r.session_expires with
      | some expires =>
        if now < expires then
          ((u, r) :: rest, false, some ⟨u, r.user_id, r.thread_id⟩)
        else
          let res := validateLoop now token rest
          ((u, clearSession r) :: res.1, true, res.2.2)
      | none =>
        let res := validateLoop now token rest
        ((u, r) :: res.1, res.2.1, res.2.2)
    else
      let res := validateLoop now token rest
      ((u, r) :: res.1, res.2.1, res.2.2)

/-- `UserDatabase.validate_session`.  Each expired match is cleared and the
full mapping saved at that point; since clears are the only in-loop
mutations and each is immediately saved, the file after the call equals the
final mapping whenever at least one save happened. -/
def validate_session (now : Nat) (token : String) (db : DB) :
    DB × Option SessionInfo :=
  let res := validateLoop now token db.users
  ({ users := res.1, file := if res.2.1 then res.1 else db.file }, res.2.2)

/-- The two field assignments of `update_chat_last_message`. -/
def bumpChat (now : Nat) (c : ChatRecord) : ChatRecord :=
  { c with last_message_at := some now
           message_count := c.message_count + 1 }

/-- `UserDatabase.update_chat_last_message`. -/
def update_chat_last_message (now : Nat) (username chat_id : String)
    (db : DB) : DB :=
  match lookup username db.users with
  | some r =>
    if (lookup chat_id r.chats).isSome then
      let users' := mapVal username
        (fun r0 => { r0 with chats := mapVal chat_id (bumpChat now) r0.chats })
        db.users
      { users := users', file := users' }
    else db
  | none => db

/-! ### Lemmas about `splitOn` -/

theorem splitOn_ne_nil (c : Char) (s : Str) : splitOn c s ≠ [] := by
  cases s with
  | nil => simp [splitOn]
  | cons x xs =>
    simp only [splitOn]
    split
    · simp
    · split <;> simp

theorem splitOn_not_mem {c : Char} : ∀ {s : Str}, c ∉ s → splitOn c s = [s]
  | [], _ => rfl
  | x :: xs, h => by
    have hx : ¬ x = c := fun hh => h (hh ▸ List.mem_cons_self x xs)
    have hxs : c ∉ xs := fun hm => h (List.mem_cons_of_mem _ hm)
    simp only [splitOn, if_neg hx, splitOn_not_mem hxs]

theorem splitOn_append {c : Char} :
    ∀ {s : Str} (t : Str), c ∉ s → splitOn c (s ++ c :: t) = s :: splitOn c t
  | [], t, _ => by simp [splitOn]
  | x :: xs, t, h => by
    have hx : ¬ x = c := fun hh => h (hh ▸ List.mem_cons_self x xs)
    have hxs : c ∉ xs := fun hm => h (List.mem_cons_of_mem _ hm)
    simp only [List.cons_append, splitOn, if_neg hx, List.append_eq,
      splitOn_append t hxs]

theorem splitOn_length (c : Char) : ∀ s : Str, (splitOn c s).length = s.count c + 1
  | [] => rfl
  | x :: xs => by
    by_cases hx : x = c
    · subst hx
      simp [splitOn, splitOn_length x xs, List.count_cons]
    · have hlen := splitOn_length c xs
      simp only [splitOn, if_neg hx]
      cases hsp : splitOn c xs with
      | nil => exact absurd hsp (splitOn_ne_nil c xs)
      | cons y ys =>
        rw [hsp] at hlen
        simp only [List.length_cons] at hlen ⊢
        simp [List.count_cons, hx, ← hlen]

/-! ### Credential-store lemmas -/

theorem verify_hash_self (H : Str → Str) (salt p : Str)
    (hs : ':' ∉ salt) (hd : ':' ∉ H (p ++ salt)) :
    verify_password H p (hash_password H salt p) = true := by
  unfold verify_password hash_password
  rw [splitOn_append _ hs, splitOn_not_mem hd]
  simp

theorem verify_hash_other (H : Str → Str) (Hinj : Function.Injective H)
    (salt p p2 : Str) (hp : p ≠ p2)
    (hs : ':' ∉ salt) (hd2 : ':' ∉ H (p2 ++ salt)) :
    verify_password H p (hash_password H salt p2) = false := by
  unfold verify_password hash_password
  rw [splitOn_append _ hs, splitOn_not_mem hd2]
  simp only [decide_eq_false_iff_not]
  intro heq
  exact hp (List.append_cancel_right (Hinj heq))

theorem hash_distinct_salts (H : Str → Str) (salt1 salt2 p : Str)
    (hs1 : ':' ∉ salt1) (hs2 : ':' ∉ salt2) (hss : salt1 ≠ salt2) :
    hash_password H salt1 p ≠ hash_password H salt2 p := by
  intro heq
  have h1 := congrArg (splitOn ':') heq
  unfold hash_password at h1
  rw [splitOn_append _ hs1, splitOn_append _ hs2] at h1
  exact hss (List.head_eq_of_cons_eq h1)

/-! ### Lemmas about `lookup` and `mapVal` -/

theorem lookup_cons {α : Type} (k k' : String) (v : α) (rest : List (String × α)) :
    lookup k ((k', v) :: rest) = if k' = k then some v else lookup k rest := rfl

theorem mapVal_cons {α : Type} (k : String) (f : α → α) (k' : String) (v : α)
    (rest : List (String × α)) :
    mapVal k f ((k', v) :: rest)
      = (if k' = k then (k', f v) else (k', v)) :: mapVal k f rest := rfl

theorem lookup_mapVal_self {α : Type} (k : String) (f : α → α) :
    ∀ l : List (String × α), lookup k (mapVal k f l) = (lookup k l).map f
  | [] => rfl
  | (k', v) :: rest => by
    rw [mapVal_cons]
    by_cases h : k' = k
    · rw [if_pos h]
      show (if k' = k then some (f v) else lookup k (mapVal k f rest))
        = Option.map f (if k' = k then some v else lookup k rest)
      rw [if_pos h, if_pos h]
      rfl
    · rw [if_neg h]
      show (if k' = k then some v else lookup k (mapVal k f rest))
        = Option.map f (if k' = k then some v else lookup k rest)
      rw [if_neg h, if_neg h, lookup_mapVal_self k f rest]

theorem lookup_mapVal_ne {α : Type} {k k' : String} (h : k' ≠ k) (f : α → α) :
    ∀ l : List (String × α), lookup k' (mapVal k f l) = lookup k' l
  | [] => rfl
  | (k0, v) :: rest => by
    rw [mapVal_cons]
    by_cases h0 : k0 = k
    · rw [if_pos h0]
      show (if k0 = k' then some (f v) else lookup k' (mapVal k f rest))
        = (if k0 = k' then some v else lookup k' rest)
      have hne : ¬ k0 = k' := fun hh => h (hh ▸ h0)
      rw [if_neg hne, if_neg hne, lookup_mapVal_ne h f rest]
    · rw [if_neg h0]
      show (if k0 = k' then some v else lookup k' (mapVal k f rest))
        = (if k0 = k' then some v else lookup k' rest)
      by_cases h1 : k0 = k'
      · rw [if_pos h1, if_pos h1]
      · rw [if_neg h1, if_neg h1, lookup_mapVal_ne h f rest]

theorem mem_mapVal {α : Type} {k : String} {f : α → α}
    {l : List (String × α)} {p : String × α} (hp : p ∈ mapVal k f l) :
    ∃ q ∈ l, p = if q.1 = k then (q.1, f q.2) else q := by
  obtain ⟨q, hq, hpq⟩ := List.mem_map.mp hp
  exact ⟨q, hq, hpq.symm⟩

/-! ### Lemmas about `validateLoop` and `validate_session` -/

/-- What a full pass of the expired-branch does to one entry. -/
def clearMatching (token : String) (p : String × UserRecord) :
    String × UserRecord :=
  if p.2.session_token = some token then (p.1, clearSession p.2) else p

theorem clearMatching_clears (token : String) (p : String × UserRecord) :
    (clearMatching token p).2.session_token ≠ some token := by
  unfold clearMatching
  split
  · simp [clearSession]
  · next h => exact h

theorem validateLoop_nomatch (now : Nat) (token : String) :
    ∀ l : Users, (∀ p ∈ l, p.2.session_token ≠ some token) →
      validateLoop now token l = (l, false, none)
  | [], _ => rfl
  | (u, r) :: rest, h => by
    have hr : ¬ r.session_token = some token := h (u, r) (List.mem_cons_self _ _)
    have hrest := validateLoop_nomatch now token rest
      (fun p hp => h p (List.mem_cons_of_mem _ hp))
    simp [validateLoop, hr, hrest]

theorem validateLoop_expired (now : Nat) (token : String) :
    ∀ l : Users,
      (∀ p ∈ l, p.2.session_token = some token →
        ∃ e, p.2.session_expires = some e ∧ e ≤ now) →
      validateLoop now token l =
        (l.map (clearMatching token),
         l.any (fun p => p.2.session_token = some token), none)
  | [], _ => rfl
  | (u, r) :: rest, h => by
    have hrest := validateLoop_expired now token rest
      (fun p hp => h p (List.mem_cons_of_mem _ hp))
    by_cases hr : r.session_token = some token
    · obtain ⟨e, he, hle⟩ := h (u, r) (List.mem_cons_self _ _) hr
      have he' : r.session_expires = some e := he
      have hnlt : ¬ now < e := Nat.not_lt.mpr hle
      simp [validateLoop, hr, he', hnlt, hrest, clearMatching, List.any_cons]
    · simp [validateLoop, hr, hrest, clearMatching, List.any_cons]

theorem validate_session_nomatch (now : Nat) (token : String) (db : DB)
    (h : ∀ p ∈ db.users, p.2.session_token ≠ some token) :
    validate_session now token db = (db, none) := by
  have hl := validateLoop_nomatch now token db.users h
  simp [validate_session, hl]

/-! ### Concrete sample data used to instantiate hypotheses -/

/-- A deactivated user, as `deactivate_user` leaves one. -/
def cxUser : UserRecord :=
  { user_id := "u0", username := "bob", email := "bob@x", password_hash := ['a']
    created_at := 0, last_login := none, chats := [], is_active := false
    session_token := none, session_expires := none, thread_id := none }

def cxDB : DB := { users := [("bob", cxUser)], file := [("bob", cxUser)] }

/-- An active user whose stored credential is malformed-empty, so any
password fails verification. -/
def wUser : UserRecord :=
  { user_id := "u1", username := "alice", email := "alice@x", password_hash := []
    created_at := 0, last_login := none, chats := [], is_active := true
    session_token := none, session_expires := none, thread_id := none }

def wDB : DB := { users := [("alice", wUser)], file := [("alice", wUser)] }

/-- An active user holding a session token whose expiry (5) has passed. -/
def sUser : UserRecord :=
  { user_id := "u7", username := "carl", email := "carl@x", password_hash := []
    created_at := 0, last_login := none, chats := [], is_active := true
    session_token := some "T", session_expires := some 5, thread_id := none }

def sDB : DB := { users := [("carl", sUser)], file := [("carl", sUser)] }

def wChat : ChatRecord :=
  { chat_id := "c1", title := "New Chat", thread_id := none
    created_at := 0, last_message_at := none, message_count := 0 }

/-- A user owning one chat. -/
def cUser : UserRecord :=
  { user_id := "u9", username := "dora", email := "dora@x", password_hash := []
    created_at := 0, last_login := none, chats := [("c1", wChat)]
    is_active := true, session_token := none, session_expires := none
    thread_id := none }

def cDB : DB := { users := [("dora", cUser)], file := [("dora", cUser)] }

/-! ### The claims -/

/-- C1 counterexample: `_load_users` treats a corrupt persisted file exactly
like a missing one — it logs and returns the empty store — whereas the
spec's load contract demands a propagated `PersistenceError`; so the claim
that a corrupt file is "an error propagated to the caller rather than
silently falling back to an empty store" is false of the code. -/
theorem load_users_corrupt_counterexample :
    load_users FileState.corrupt = load_users FileState.missing ∧
    load_users_specContract FileState.corrupt
      ≠ Except.ok (load_users FileState.corrupt) := by
  refine ⟨rfl, ?_⟩
  intro h
  exact Except.noConfusion h

/-- C1 (amended): on construction the User Store treats a missing persisted
file as an empty store, and ALSO treats a corrupt (unparseable) persisted
file as an empty store after logging the error — the load error is not
propagated to the caller; a parseable file loads as its contents. -/
theorem load_users_fallback (u : Users) :
    load_users FileState.missing = [] ∧
    load_users FileState.corrupt = [] ∧
    load_users (FileState.valid u) = u :=
  ⟨rfl, rfl, rfl⟩

/-- Witness for C1 (amended) at the empty stored mapping. -/
theorem load_users_fallback_witness :
    load_users FileState.missing = [] ∧
    load_users FileState.corrupt = [] ∧
    load_users (FileState.valid []) = [] :=
  load_users_fallback []

/-- C2 counterexample: with a deactivated user "bob" in the store,
`authenticate_user("bob", wrongPassword)` answers "Account is deactivated"
while `authenticate_user("carol", anyPassword)` (nonexistent username)
answers "Invalid username or password" — distinguishable failure messages,
so the caller does learn that "bob" exists. -/
theorem authenticate_enumeration_counterexample :
    (authenticate_user (fun _ => []) 0 "bob" ['x'] cxDB).2.message
      = "Account is deactivated" ∧
    (authenticate_user (fun _ => []) 0 "carol" ['x'] cxDB).2.message
      = "Invalid username or password" ∧
    ("Account is deactivated" : String) ≠ "Invalid username or password" := by
  refine ⟨rfl, rfl, by decide⟩

/-- C2 (amended): for every store, username and password, a nonexistent
username and an existing ACTIVE username with a failing password produce the
identical failure result `{success := false, message := "Invalid username or
password"}` and leave the store untouched; only a deactivated account is
distinguishable. -/
theorem authenticate_fail_uniform (H : Str → Str) (now : Nat)
    (username : String) (password : Str) (db : DB) :
    (lookup username db.users = none →
      (authenticate_user H now username password db).2
        = ⟨false, "Invalid username or password", none⟩ ∧
      (authenticate_user H now username password db).1 = db) ∧
    (∀ r, lookup username db.users = some r → r.is_active = true →
      verify_password H password r.password_hash = false →
      (authenticate_user H now username password db).2
        = ⟨false, "Invalid username or password", none⟩ ∧
      (authenticate_user H now username password db).1 = db) := by
  constructor
  · intro h
    rw [authenticate_user, h]
    exact ⟨rfl, rfl⟩
  · intro r hr ha hv
    rw [authenticate_user, hr]
    simp only [ha, hv, Bool.not_true, Bool.not_false, if_false, if_true]
    exact ⟨rfl, rfl⟩

/-- Witness for C2 (amended): nonexistent "zoe" and active "alice" with a
wrong password get the same failure result on `wDB`. -/
theorem authenticate_fail_uniform_witness :
    ((authenticate_user (fun s => s) 3 "zoe" ['x'] wDB).2
        = ⟨false, "Invalid username or password", none⟩ ∧
      (authenticate_user (fun s => s) 3 "zoe" ['x'] wDB).1 = wDB) ∧
    ((authenticate_user (fun s => s) 3 "alice" ['x'] wDB).2
        = ⟨false, "Invalid username or password", none⟩ ∧
      (authenticate_user (fun s => s) 3 "alice" ['x'] wDB).1 = wDB) :=
  ⟨(authenticate_fail_uniform (fun s => s) 3 "zoe" ['x'] wDB).1 (by decide),
   (authenticate_fail_uniform (fun s => s) 3 "alice" ['x'] wDB).2 wUser
     (by decide) (by decide) (by decide)⟩

/-- C3: with the digest function injective (the collision-freedom idealised
from SHA-256) and salts/digests free of the `':'` delimiter (as hex strings
are), `verify(p, hash(p)) = true`; `verify(p, hash(p2)) = false` for
`p ≠ p2`; and two hashes of `p` under distinct salts are distinct credential
strings that both verify against `p`. -/
theorem hash_verify_roundtrip (H : Str → Str) (Hinj : Function.Injective H)
    (p p2 salt salt1 salt2 : Str)
    (hp : p ≠ p2)
    (hs : ':' ∉ salt) (hd : ':' ∉ H (p ++ salt)) (hd2 : ':' ∉ H (p2 ++ salt))
    (hs1 : ':' ∉ salt1) (hs2 : ':' ∉ salt2) (hss : salt1 ≠ salt2)
    (hd1' : ':' ∉ H (p ++ salt1)) (hd2' : ':' ∉ H (p ++ salt2)) :
    verify_password H p (hash_password H salt p) = true ∧
    verify_password H p (hash_password H salt p2) = false ∧
    hash_password H salt1 p ≠ hash_password H salt2 p ∧
    verify_password H p (hash_password H salt1 p) = true ∧
    verify_password H p (hash_password H salt2 p) = true :=
  ⟨verify_hash_self H salt p hs hd,
   verify_hash_other H Hinj salt p p2 hp hs hd2,
   hash_distinct_salts H salt1 salt2 p hs1 hs2 hss,
   verify_hash_self H salt1 p hs1 hd1',
   verify_hash_self H salt2 p hs2 hd2'⟩

/-- Witness for C3 with the identity digest at concrete passwords/salts. -/
theorem hash_verify_roundtrip_witness :
    verify_password (fun s => s) ['a']
        (hash_password (fun s => s) ['s'] ['a']) = true ∧
    verify_password (fun s => s) ['a']
        (hash_password (fun s => s) ['s'] ['b']) = false ∧
    hash_password (fun s => s) ['t'] ['a']
      ≠ hash_password (fun s => s) ['u'] ['a'] ∧
    verify_password (fun s => s) ['a']
        (hash_password (fun s => s) ['t'] ['a']) = true ∧
    verify_password (fun s => s) ['a']
        (hash_password (fun s => s) ['u'] ['a']) = true :=
  hash_verify_roundtrip (fun s => s) Function.injective_id
    ['a'] ['b'] ['s'] ['t'] ['u'] (by decide) (by decide) (by decide)
    (by decide) (by decide) (by decide) (by decide) (by decide) (by decide)

/-- C4: `register_user` fails with the duplicate-username result when the
username is already a key, fails with the duplicate-email result when the
username is fresh but some existing record has the same email (the username
check runs first), and in both cases returns the state — in-memory mapping
and persisted file, hence every existing record — completely unchanged. -/
theorem register_duplicate_unchanged (H : Str → Str) (uid : String)
    (salt : Str) (now : Nat) (username email : String) (password : Str)
    (db : DB) :
    ((lookup username db.users).isSome = true →
      register_user H uid salt now username email password db
        = (db, ⟨false, "Username already exists", none⟩)) ∧
    (lookup username db.users = none →
      (∃ p ∈ db.users, p.2.email = email) →
      register_user H uid salt now username email password db
        = (db, ⟨false, "Email already exists", none⟩)) := by
  constructor
  · intro h
    rw [register_user, if_pos h]
  · intro h hmail
    have hnone : (lookup username db.users).isSome = false := by
      rw [h]; rfl
    have hany : db.users.any (fun p => p.2.email = email) = true := by
      rw [List.any_eq_true]
      obtain ⟨p, hp, he⟩ := hmail
      exact ⟨p, hp, by simp [he]⟩
    rw [register_user]
    simp only [hnone, Bool.false_eq_true, if_false, hany, if_true]

/-- Witness for C4: re-registering "alice", and registering a fresh
username with alice's email, both fail and leave `wDB` unchanged. -/
theorem register_duplicate_unchanged_witness :
    register_user (fun s => s) "u2" ['s'] 9 "alice" "new@x" ['p'] wDB
      = (wDB, ⟨false, "Username already exists", none⟩) ∧
    register_user (fun s => s) "u2" ['s'] 9 "eve" "alice@x" ['p'] wDB
      = (wDB, ⟨false, "Email already exists", none⟩) :=
  ⟨(register_duplicate_unchanged (fun s => s) "u2" ['s'] 9 "alice" "new@x"
      ['p'] wDB).1 (by decide),
   (register_duplicate_unchanged (fun s => s) "u2" ['s'] 9 "eve" "alice@x"
      ['p'] wDB).2 (by decide) ⟨("alice", wUser), by decide, by decide⟩⟩

/-- C5: if every record carrying the token has a stored expiry that has
passed (in particular, if the single matching record does, or no record
matches), `validate_session` returns `none`; afterwards no record carries
the token any more; whenever at least one record matched, the clear was
persisted (file = mapping); and a second `validate_session` with the same
token, at any later time, again returns `none`. -/
theorem validate_expired_clears (now now2 : Nat) (token : String) (db : DB)
    (hexp : ∀ p ∈ db.users, p.2.session_token = some token →
      ∃ e, p.2.session_expires = some e ∧ e ≤ now) :
    (validate_session now token db).2 = none ∧
    (∀ p ∈ (validate_session now token db).1.users,
      p.2.session_token ≠ some token) ∧
    ((∃ p ∈ db.users, p.2.session_token = some token) →
      (validate_session now token db).1.file
        = (validate_session now token db).1.users) ∧
    (validate_session now2 token (validate_session now token db).1).2
      = none := by
  have hloop := validateLoop_expired now token db.users hexp
  have husers : (validate_session now token db).1.users
      = db.users.map (clearMatching token) := by
    simp [validate_session, hloop]
  have hnomatch : ∀ p ∈ (validate_session now token db).1.users,
      p.2.session_token ≠ some token := by
    intro p hp
    rw [husers] at hp
    obtain ⟨q, _, rfl⟩ := List.mem_map.mp hp
    exact clearMatching_clears token q
  refine ⟨?_, hnomatch, ?_, ?_⟩
  · simp [validate_session, hloop]
  · intro hmem
    have hany : db.users.any (fun p => p.2.session_token = some token)
        = true := by
      rw [List.any_eq_true]
      obtain ⟨p, hp, ht⟩ := hmem
      exact ⟨p, hp, by simp [ht]⟩
    simp [validate_session, hloop, hany]
  · rw [validate_session_nomatch now2 token _ hnomatch]

/-- Witness for C5: carl's token "T" expired at 5; validating at time 10
returns `none`, clears and persists, and validating again at 99 returns
`none`. -/
theorem validate_expired_clears_witness :
    (validate_session 10 "T" sDB).2 = none ∧
    (∀ p ∈ (validate_session 10 "T" sDB).1.users,
      p.2.session_token ≠ some "T") ∧
    ((∃ p ∈ sDB.users, p.2.session_token = some "T") →
      (validate_session 10 "T" sDB).1.file
        = (validate_session 10 "T" sDB).1.users) ∧
    (validate_session 99 "T" (validate_session 10 "T" sDB).1).2 = none :=
  validate_expired_clears 10 99 "T" sDB (by
    intro p hp htok
    simp only [sDB, List.mem_singleton] at hp
    subst hp
    exact ⟨5, rfl, by decide⟩)

/-- After `create_user_session` stamps a fresh token on `username`'s record,
the `validate_session` scan finds that record (no earlier record can carry
the fresh token) and its expiry has not passed. -/
theorem validateLoop_after_grant (now : Nat) (token username : String)
    {r : UserRecord} :
    ∀ l : Users, lookup username l = some r →
      (∀ p ∈ l, p.1 ≠ username → p.2.session_token ≠ some token) →
      (validateLoop now token (mapVal username (setSession token now) l)).2.2
        = some ⟨username, r.user_id, r.thread_id⟩
  | [], h, _ => by simp [lookup] at h
  | (k, v) :: rest, h, hfresh => by
    rw [mapVal_cons]
    by_cases hk : k = username
    · rw [if_pos hk]
      rw [lookup_cons, if_pos hk] at h
      have hv : v = r := Option.some.inj h
      subst hv
      subst hk
      have hlt : now < now + sessionSeconds := by
        have hpos : 0 < sessionSeconds := by decide
        omega
      simp [validateLoop, setSession, hlt]
    · rw [if_neg hk]
      rw [lookup_cons, if_neg hk] at h
      have hhead : ¬ v.session_token = some token :=
        hfresh (k, v) (List.mem_cons_self _ _) hk
      have ih := validateLoop_after_grant now token username rest h
        (fun p hp hne => hfresh p (List.mem_cons_of_mem _ hp) hne)
      simp [validateLoop, hhead, ih]

/-- C6: for an existing user, `create_user_session` overwrites the record's
(single, scalar) session fields with the fresh token and the absolute expiry
`now + 24h`, so the record holds exactly this one token; and the replaced
token `t_old` no longer validates afterwards (given the pre-state satisfied
the single-session-per-user invariant, no other record carries it), with
`validate_session` returning `none` and leaving the state unchanged. -/
theorem grant_session_overwrites (token t_old : String) (now now2 : Nat)
    (username : String) (db : DB) (r : UserRecord)
    (hu : lookup username db.users = some r)
    (hold : r.session_token = some t_old)
    (hne : t_old ≠ token)
    (hsingle : ∀ p ∈ db.users, p.1 ≠ username →
      p.2.session_token ≠ some t_old) :
    lookup username (create_user_session token now username db).1.users
      = some { r with session_token := some token
                      session_expires := some (now + sessionSeconds) } ∧
    validate_session now2 t_old (create_user_session token now username db).1
      = ((create_user_session token now username db).1, none) := by
  have hbr : (lookup username db.users).isSome = true := by rw [hu]; rfl
  have hdb1 : (create_user_session token now username db).1
      = { users := mapVal username (setSession token now) db.users
          file := mapVal username (setSession token now) db.users } := by
    rw [create_user_session, if_pos hbr]
  constructor
  · rw [hdb1]
    show lookup username (mapVal username (setSession token now) db.users) = _
    rw [lookup_mapVal_self, hu]
    rfl
  · apply validate_session_nomatch
    rw [hdb1]
    intro p hp
    obtain ⟨q, hq, hpq⟩ := mem_mapVal hp
    by_cases hq1 : q.1 = username
    · rw [if_pos hq1] at hpq
      subst hpq
      simp only [setSession]
      intro hh
      exact hne (Option.some.inj hh).symm
    · rw [if_neg hq1] at hpq
      rw [hpq]
      exact hsingle q hq hq1

/-- Witness for C6: granting carl the fresh token "NEW" at time 50
overwrites his stored token "T", which then no longer validates. -/
theorem grant_session_overwrites_witness :
    lookup "carl" (create_user_session "NEW" 50 "carl" sDB).1.users
      = some { sUser with session_token := some "NEW"
                          session_expires := some (50 + sessionSeconds) } ∧
    validate_session 60 "T" (create_user_session "NEW" 50 "carl" sDB).1
      = ((create_user_session "NEW" 50 "carl" sDB).1, none) :=
  grant_session_overwrites "NEW" "T" 50 60 "carl" sDB sUser (by decide) rfl
    (by decide) (by decide)

/-- C7: for an existing user, the token returned by `create_user_session`
is the granted one, and validating it immediately (same `now`) succeeds,
returning that user's username and `user_id` (the token being fresh, no
other record carries it). -/
theorem grant_session_validates (token : String) (now : Nat)
    (username : String) (db : DB) (r : UserRecord)
    (hu : lookup username db.users = some r)
    (hfresh : ∀ p ∈ db.users, p.1 ≠ username →
      p.2.session_token ≠ some token) :
    (create_user_session token now username db).2 = token ∧
    (validate_session now token
        (create_user_session token now username db).1).2
      = some ⟨username, r.user_id, r.thread_id⟩ := by
  have hbr : (lookup username db.users).isSome = true := by rw [hu]; rfl
  have hdb1 : (create_user_session token now username db).1
      = { users := mapVal username (setSession token now) db.users
          file := mapVal username (setSession token now) db.users } := by
    rw [create_user_session, if_pos hbr]
  constructor
  · rw [create_user_session, if_pos hbr]
  · rw [hdb1]
    have hl := validateLoop_after_grant now token username db.users hu hfresh
    simp [validate_session, hl]

/-- Witness for C7: alice's freshly granted token "NEW" validates at once
and returns her username and user id. -/
theorem grant_session_validates_witness :
    (create_user_session "NEW" 7 "alice" wDB).2 = "NEW" ∧
    (validate_session 7 "NEW" (create_user_session "NEW" 7 "alice" wDB).1).2
      = some ⟨"alice", "u1", none⟩ :=
  grant_session_validates "NEW" 7 "alice" wDB wUser (by decide) (by decide)

/-- C8: when the user and the chat exist, `update_chat_last_message` sets
`last_message_at := now` and increments `message_count` by exactly one on
that chat, leaves its remaining fields, every other chat and every other
user record unchanged, and persists (file = mapping); when the user or the
chat is absent it returns the state unchanged. -/
theorem record_message_updates (now : Nat) (username chat_id : String)
    (db : DB) :
    (∀ r c, lookup username db.users = some r →
      lookup chat_id r.chats = some c →
      lookup username (update_chat_last_message now username chat_id db).users
        = some { r with chats := mapVal chat_id (bumpChat now) r.chats } ∧
      lookup chat_id (mapVal chat_id (bumpChat now) r.chats)
        = some { c with last_message_at := some now
                        message_count := c.message_count + 1 } ∧
      (∀ c', c' ≠ chat_id →
        lookup c' (mapVal chat_id (bumpChat now) r.chats)
          = lookup c' r.chats) ∧
      (∀ u', u' ≠ username →
        lookup u' (update_chat_last_message now username chat_id db).users
          = lookup u' db.users) ∧
      (update_chat_last_message now username chat_id db).file
        = (update_chat_last_message now username chat_id db).users) ∧
    (∀ r, lookup username db.users = some r →
      lookup chat_id r.chats = none →
      update_chat_last_message now username chat_id db = db) ∧
    (lookup username db.users = none →
      update_chat_last_message now username chat_id db = db) := by
  refine ⟨?_, ?_, ?_⟩
  · intro r c hr hc
    have hcs : (lookup chat_id r.chats).isSome = true := by rw [hc]; rfl
    have hup_users : (update_chat_last_message now username chat_id db).users
        = mapVal username
            (fun r0 =>
              { r0 with chats := mapVal chat_id (bumpChat now) r0.chats })
            db.users := by
      simp [update_chat_last_message, hr, hcs]
    have hup_file : (update_chat_last_message now username chat_id db).file
        = mapVal username
            (fun r0 =>
              { r0 with chats := mapVal chat_id (bumpChat now) r0.chats })
            db.users := by
      simp [update_chat_last_message, hr, hcs]
    refine ⟨?_, ?_, ?_, ?_, ?_⟩
    · rw [hup_users, lookup_mapVal_self, hr]
      rfl
    · rw [lookup_mapVal_self, hc]
      rfl
    · intro c' hc'
      exact lookup_mapVal_ne hc' _ r.chats
    · intro u' hu'
      rw [hup_users]
      exact lookup_mapVal_ne hu' _ db.users
    · rw [hup_users, hup_file]
  · intro r hr hc
    have hcs : (lookup chat_id r.chats).isSome = false := by rw [hc]; rfl
    simp [update_chat_last_message, hr, hcs]
  · intro h
    simp [update_chat_last_message, h]

/-- Witness for C8: bumping dora's chat "c1" at time 42, and the no-op on
the nonexistent chat "c9". -/
theorem record_message_updates_witness :
    lookup "dora" (update_chat_last_message 42 "dora" "c1" cDB).users
      = some { cUser with chats := mapVal "c1" (bumpChat 42) cUser.chats } ∧
    update_chat_last_message 42 "dora" "c9" cDB = cDB :=
  ⟨((record_message_updates 42 "dora" "c1" cDB).1 cUser wChat (by decide)
      (by decide)).1,
   (record_message_updates 42 "dora" "c9" cDB).2.1 cUser (by decide)
     (by decide)⟩

/-- C9: `_verify_password` is total and fails closed: on any credential
string not containing exactly one `':'` delimiter (none, or more than one),
it returns `false` for every password, instead of raising. -/
theorem verify_password_fails_closed (H : Str → Str)
    (password stored_hash : Str) (h : stored_hash.count ':' ≠ 1) :
    verify_password H password stored_hash = false := by
  unfold verify_password
  split
  · rename_i salt digest heq
    exfalso
    have hlen := splitOn_length ':' stored_hash
    rw [heq] at hlen
    simp only [List.length_cons, List.length_nil] at hlen
    omega
  · rfl

/-- Witness for C9: a credential with no delimiter and one with two
delimiters both fail verification. -/
theorem verify_password_fails_closed_witness :
    verify_password (fun s => s) ['p'] ['a', 'b'] = false ∧
    verify_password (fun s => s) ['p'] ['a', ':', 'b', ':', 'c'] = false :=
  ⟨verify_password_fails_closed _ _ _ (by decide),
   verify_password_fails_closed _ _ _ (by decide)⟩

/-- C10: `create_user_session` on an unknown username still returns the
freshly generated token, but modifies no record and persists nothing (the
state is returned unchanged), and — the token being fresh, held by no
record — it never validates afterwards: `validate_session` at any time
returns `none` on the unchanged state. -/
theorem grant_session_unknown_user (token : String) (now now2 : Nat)
    (username : String) (db : DB)
    (habs : lookup username db.users = none)
    (hfresh : ∀ p ∈ db.users, p.2.session_token ≠ some token) :
    (create_user_session token now username db).2 = token ∧
    (create_user_session token now username db).1 = db ∧
    validate_session now2 token db = (db, none) := by
  have hbr : (lookup username db.users).isSome = false := by rw [habs]; rfl
  have h1 : create_user_session token now username db = (db, token) := by
    rw [create_user_session]
    simp [hbr]
  exact ⟨by rw [h1], by rw [h1],
    validate_session_nomatch now2 token db hfresh⟩

/-- Witness for C10: granting a session to the unknown "zoe" returns the
token, changes nothing, and the token "F" never validates. -/
theorem grant_session_unknown_user_witness :
    (create_user_session "F" 1 "zoe" wDB).2 = "F" ∧
    (create_user_session "F" 1 "zoe" wDB).1 = wDB ∧
    validate_session 2 "F" wDB = (wDB, none) :=
  grant_session_unknown_user "F" 1 2 "zoe" wDB (by decide) (by decide)

end UserDb
